import Mathlib

/-!
Shallow embedding of the artwork-compliance pipeline of the
mp3-vibe-artwork repository:

* src/processors/artwork_processor.py  (validation, resize, byte-budget search)
* src/processors/file_handler.py       (artwork extraction / frame selection)
* src/processors/file_operations.py    (artwork embedding into ID3 tags)
* src/app/services/mp3_output_service.py (embed with copy / cleanup on failure)

External libraries (PIL, mutagen) are abstracted:

* decoding a byte string either fails or yields a `DecodedImage`; the decode
  result of a byte buffer is carried alongside its byte size in `ImageBytes`;
* the JPEG/PNG encoders are parameters (a `Codec`) mapping the in-memory image
  and the encoding parameters to the byte size of the encoded output, with the
  modelling assumption that encoding preserves pixel dimensions and colour
  mode and yields bytes that decode to the encoded format;
* Python float arithmetic in the resize computation is modelled by exact
  rational arithmetic, and Python int() truncation of a nonnegative value by
  the floor;
* the ID3 tag container is a list of frames; mutagen save () either persists
  the frame list or fails (the failure case is an explicit boolean parameter).
-/

namespace Mp3Art

/-- Image formats as reported by PIL (img.format). -/
inductive ImgFormat
  | JPEG
  | PNG
  | GIF
  | BMP
  | unknown
deriving DecidableEq

/-- PIL colour modes relevant to the conversion logic. -/
inductive IMode
  | RGB
  | RGBA
  | LA
  | P
  | L
  | CMYK
deriving DecidableEq

/-- An in-memory decoded image (the PIL Image object): pixel dimensions,
reported source format, and colour mode. -/
structure DecodedImage where
  width : Nat
  height : Nat
  format : ImgFormat
  mode : IMode
deriving DecidableEq

/-- A raw image byte buffer: its length and the result of attempting to decode
it (`none` models a PIL decode failure). -/
structure ImageBytes where
  size : Nat
  decoded : Option DecodedImage
deriving DecidableEq

/-- ArtworkProcessor.MAX_WIDTH. -/
def MAX_WIDTH : Nat := 500

/-- ArtworkProcessor.MAX_HEIGHT. -/
def MAX_HEIGHT : Nat := 500

/-- ArtworkProcessor.MAX_FILE_SIZE = 500 * 1024. -/
def MAX_FILE_SIZE : Nat := 500 * 1024

/-- ArtworkProcessor.SUPPORTED_FORMATS = set(JPEG, PNG). -/
def supportedFormat : ImgFormat → Bool
  | .JPEG => true
  | .PNG => true
  | _ => false

/-- Categories of the issue strings appended by validate_artwork, in the
order the source appends them. -/
inductive Issue
  | tooLarge
  | unsupportedFormat
  | tooWide
  | tooTall
  | corrupt
deriving DecidableEq

/-- ArtworkProcessor.validate_artwork (artwork_processor.py lines 37-84):
checks the byte size first, then tries to decode; on decode success checks
format and dimensions, on decode failure records a corrupt-image issue.
Returns (is_valid, issues) with is_valid true iff the issue list is empty. -/
def validate_artwork (d : ImageBytes) : Bool × List Issue :=
  let sizeIssues : List Issue :=
    if MAX_FILE_SIZE < d.size then [Issue.tooLarge] else []
  let imgIssues : List Issue :=
    match d.decoded with
    | some img =>
        (if supportedFormat img.format then [] else [Issue.unsupportedFormat])
          ++ (if MAX_WIDTH < img.width then [Issue.tooWide] else [])
          ++ (if MAX_HEIGHT < img.height then [Issue.tooTall] else [])
    | none => [Issue.corrupt]
  let issues := sizeIssues ++ imgIssues
  (issues.isEmpty, issues)

/-- Result of ArtworkProcessor.get_image_info (artwork_processor.py 86-129). -/
structure ImageInfo where
  format : Option ImgFormat
  mode : Option IMode
  width : Nat
  height : Nat
  size_bytes : Nat
  has_transparency : Bool
  error : Option String
deriving DecidableEq

/-- ArtworkProcessor.get_image_info. -/
def get_image_info (d : ImageBytes) : ImageInfo :=
  match d.decoded with
  | some img =>
      { format := some img.format, mode := some img.mode,
        width := img.width, height := img.height, size_bytes := d.size,
        has_transparency := decide (img.mode = .RGBA ∨ img.mode = .LA),
        error := none }
  | none =>
      { format := none, mode := none, width := 0, height := 0,
        size_bytes := d.size, has_transparency := false,
        error := some "cannot identify image file" }

/-- Target-format selection of resize_and_optimize (artwork_processor.py
159-164): keep the original format when supported, else default to JPEG;
an explicitly requested unsupported format also falls back to JPEG. -/
def pickTargetFormat (original : ImgFormat) (target : Option ImgFormat) : ImgFormat :=
  let tf :=
    match target with
    | none => if supportedFormat original then original else ImgFormat.JPEG
    | some t => t
  if supportedFormat tf then tf else ImgFormat.JPEG

/-- Colour-mode conversion of resize_and_optimize (artwork_processor.py
168-182): flatten alpha/palette onto an opaque background for JPEG, convert
exotic modes to RGBA for PNG. -/
def convertMode (m : IMode) (tf : ImgFormat) : IMode :=
  match tf with
  | .JPEG => if m = .RGBA ∨ m = .LA ∨ m = .P then IMode.RGB else m
  | .PNG => if m = .RGBA ∨ m = .RGB ∨ m = .L ∨ m = .LA then m else IMode.RGBA
  | _ => m

/-- Flattening performed inside _optimize_png before falling back to JPEG
(artwork_processor.py 311-317). -/
def flattenPng (m : IMode) : IMode :=
  if m = .RGBA ∨ m = .LA then IMode.RGB else m

/-- Aspect ratio width/height as an exact rational. -/
def aspect (w h : Nat) : ℚ := (w : ℚ) / (h : ℚ)

/-- The resize computation of resize_and_optimize (artwork_processor.py
184-197): when a dimension exceeds the bound, scale both dimensions by the
uniform factor min(MAX_WIDTH/width, MAX_HEIGHT/height) and truncate each
product to an integer; otherwise keep the dimensions. -/
def resizeDims (w h : Nat) : Nat × Nat :=
  if MAX_WIDTH < w ∨ MAX_HEIGHT < h then
    let scale : ℚ := min ((MAX_WIDTH : ℚ) / (w : ℚ)) ((MAX_HEIGHT : ℚ) / (h : ℚ))
    ((⌊(w : ℚ) * scale⌋).toNat, (⌊(h : ℚ) * scale⌋).toNat)
  else (w, h)

/-- Entries recorded in processing_info quality_adjustments, one constructor
per distinct string format appended by the source. -/
inductive TraceEntry
  | jpegAttempt (quality size : Nat)
  | jpegFinalQuality (quality : Nat)
  | jpegForcedFinal
  | pngAttempt (optimizePass : Bool) (compressLevel : Nat) (size : Nat)
  | pngSuccess
  | pngTooLargeConvert
  | pngBest
deriving DecidableEq

/-- quality_levels of _optimize_jpeg (artwork_processor.py line 248). -/
def quality_levels : List Nat := [95, 90, 85, 80, 75, 70, 65, 60, 55, 50, 45, 40]

/-- The descending-quality loop of _optimize_jpeg (artwork_processor.py
250-259): encode at each quality, record the attempt, and return at the first
encoded size within MAX_FILE_SIZE. `encJ q` is the byte size PIL produces for
quality q. Returns the recorded trace and, on success, (quality, size). -/
def jpegLadder (encJ : Nat → Nat) : List Nat → List TraceEntry × Option (Nat × Nat)
  | [] => ([], none)
  | q :: rest =>
    let sz := encJ q
    if sz ≤ MAX_FILE_SIZE then
      ([TraceEntry.jpegAttempt q sz, TraceEntry.jpegFinalQuality q], some (q, sz))
    else
      let r := jpegLadder encJ rest
      (TraceEntry.jpegAttempt q sz :: r.1, r.2)

/-- Outcome of _optimize_jpeg: the trace, the quality of the returned encode,
and its byte size. -/
structure JpegOutcome where
  trace : List TraceEntry
  quality : Nat
  size : Nat
deriving DecidableEq

/-- ArtworkProcessor._optimize_jpeg (artwork_processor.py 236-266): run the
quality ladder; if no ladder attempt fits, perform one final forced encode at
quality 30 and return it. -/
def optimize_jpeg (encJ : Nat → Nat) : JpegOutcome :=
  match jpegLadder encJ quality_levels with
  | (tr, some qs) => { trace := tr, quality := qs.1, size := qs.2 }
  | (tr, none) =>
      { trace := tr ++ [TraceEntry.jpegForcedFinal], quality := 30, size := encJ 30 }

/-- PNG strategies of _optimize_png (artwork_processor.py 280-284), as
(optimize flag, compress_level). -/
def png_strategies : List (Bool × Nat) := [(true, 9), (true, 6), (false, 9)]

/-- The strategy loop of _optimize_png (artwork_processor.py 289-305):
encode with each strategy, track the smallest size seen, and return at the
first size within MAX_FILE_SIZE. Returns (trace, early success size, best
size seen). -/
def pngGo (encP : Bool × Nat → Nat) :
    List (Bool × Nat) → Option Nat → List TraceEntry × Option Nat × Option Nat
  | [], best => ([], none, best)
  | s :: rest, best =>
    let sz := encP s
    let best' :=
      match best with
      | none => some sz
      | some b => if sz < b then some sz else some b
    if sz ≤ MAX_FILE_SIZE then
      ([TraceEntry.pngAttempt s.1 s.2 sz, TraceEntry.pngSuccess], some sz, best')
    else
      let r := pngGo encP rest best'
      (TraceEntry.pngAttempt s.1 s.2 sz :: r.1, r.2.1, r.2.2)

/-- Abstract encoders standing for PIL img.save: `jpeg img q` is the size of
the JPEG encode of img at quality q; `png img opt lvl` the size of the PNG
encode with the given optimize flag and compress_level; `basic img fmt` the
size of a plain save in another format. -/
structure Codec where
  jpeg : DecodedImage → Nat → Nat
  png : DecodedImage → Bool → Nat → Nat
  basic : DecodedImage → ImgFormat → Nat

/-- Outcome of _optimize_file_size: recorded trace, format and colour mode of
the encoded bytes, and their size. -/
structure OptOutcome where
  trace : List TraceEntry
  fmt : ImgFormat
  mode : IMode
  size : Nat
deriving DecidableEq

/-- ArtworkProcessor._optimize_file_size together with _optimize_png
(artwork_processor.py 214-322): dispatch on the target format; the PNG path
falls back to the JPEG ladder on a flattened image when every strategy
exceeds the budget. -/
def optimize_file_size (c : Codec) (img : DecodedImage) (tf : ImgFormat) : OptOutcome :=
  match tf with
  | .JPEG =>
      let r := optimize_jpeg (c.jpeg img)
      { trace := r.trace, fmt := .JPEG, mode := img.mode, size := r.size }
  | .PNG =>
      let r := pngGo (fun s => c.png img s.1 s.2) png_strategies none
      match r.2.1 with
      | some sz => { trace := r.1, fmt := .PNG, mode := img.mode, size := sz }
      | none =>
          let best := (r.2.2).getD 0
          if MAX_FILE_SIZE < best then
            let img2 : DecodedImage := { img with mode := flattenPng img.mode }
            let r2 := optimize_jpeg (c.jpeg img2)
            { trace := r.1 ++ [TraceEntry.pngTooLargeConvert] ++ r2.trace,
              fmt := .JPEG, mode := img2.mode, size := r2.size }
          else
            { trace := r.1 ++ [TraceEntry.pngBest], fmt := .PNG,
              mode := img.mode, size := best }
  | _ => { trace := [], fmt := tf, mode := img.mode, size := c.basic img tf }

/-- processing_info dictionary of resize_and_optimize (artwork_processor.py
143-152). -/
structure ProcessingInfo where
  original_size_bytes : Nat
  original_dimensions : Option (Nat × Nat)
  final_size_bytes : Nat
  final_dimensions : Option (Nat × Nat)
  format_changed : Bool
  resized : Bool
  quality_adjustments : List TraceEntry
  error : Option String
deriving DecidableEq

/-- ArtworkProcessor.resize_and_optimize (artwork_processor.py 131-212):
decode, choose a target format, convert the colour mode, resize when a
dimension exceeds the bound, then optimize the file size. Any internal
failure (here: decode failure) is caught and the original bytes are returned
with the error field set. -/
def resize_and_optimize (c : Codec) (image_data : ImageBytes)
    (target_format : Option ImgFormat) : ImageBytes × ProcessingInfo :=
  match image_data.decoded with
  | none =>
      (image_data,
       { original_size_bytes := image_data.size, original_dimensions := none,
         final_size_bytes := 0, final_dimensions := none, format_changed := false,
         resized := false, quality_adjustments := [],
         error := some "cannot identify image file" })
  | some img0 =>
      let tf := pickTargetFormat img0.format target_format
      let img1 : DecodedImage := { img0 with mode := convertMode img0.mode tf }
      let nd := resizeDims img1.width img1.height
      let img2 : DecodedImage := { img1 with width := nd.1, height := nd.2 }
      let r := optimize_file_size c img2 tf
      (⟨r.size, some { width := nd.1, height := nd.2, format := r.fmt, mode := r.mode }⟩,
       { original_size_bytes := image_data.size,
         original_dimensions := some (img0.width, img0.height),
         final_size_bytes := r.size,
         final_dimensions := some (nd.1, nd.2),
         format_changed := tf != img0.format,
         resized := decide (MAX_WIDTH < img1.width ∨ MAX_HEIGHT < img1.height),
         quality_adjustments := r.trace,
         error := none })

/-- Result dictionary of ArtworkProcessor.process_artwork (artwork_processor.py
343-350); processing_info is `none` when the optimizer was never invoked. -/
structure ProcessResult where
  is_compliant : Bool
  processed_data : Option ImageBytes
  original_info : ImageInfo
  processing_info : Option ProcessingInfo
  validation_issues : List Issue
  needs_processing : Bool
deriving DecidableEq

/-- ArtworkProcessor.process_artwork (artwork_processor.py 324-387): validate;
when already valid pass the original bytes through untouched; otherwise (with
force_compliance) optimize, re-validate, and expose the optimized bytes only
when the re-validation succeeds. -/
def process_artwork (c : Codec) (image_data : ImageBytes) (force_compliance : Bool) :
    ProcessResult :=
  let oi := get_image_info image_data
  let v := validate_artwork image_data
  if v.1 then
    { is_compliant := true, processed_data := some image_data, original_info := oi,
      processing_info := none, validation_issues := v.2, needs_processing := false }
  else if force_compliance then
    let r := resize_and_optimize c image_data none
    let v2 := validate_artwork r.1
    { is_compliant := v2.1, processed_data := if v2.1 then some r.1 else none,
      original_info := oi, processing_info := some r.2, validation_issues := v.2,
      needs_processing := true }
  else
    { is_compliant := false, processed_data := none, original_info := oi,
      processing_info := none, validation_issues := v.2, needs_processing := true }

/-! ID3 tag container model (mutagen): a tag is a list of frames; a frame is
either an attached picture (APIC) or any other frame kept opaque. -/

/-- An ID3 frame: an APIC attached-picture frame, or any non-picture frame
with its identifier and raw payload. -/
inductive ID3Frame
  | apic (textEncoding : Nat) (mime : String) (pictureType : Nat)
      (description : String) (data : List Nat)
  | plain (frameId : String) (payload : List Nat)
deriving DecidableEq

/-- isinstance(tag, APIC). -/
def isAPIC : ID3Frame → Bool
  | .apic .. => true
  | .plain .. => false

/-- Picture-type byte of a frame (0 for non-picture frames). -/
def frameType : ID3Frame → Nat
  | .apic _ _ t _ _ => t
  | .plain _ _ => 0

/-- Raw image payload of a frame. -/
def frameData : ID3Frame → List Nat
  | .apic _ _ _ _ d => d
  | .plain _ p => p

/-- An MP3 file: its ID3 tag (absent when the file has no/ malformed tag
header) and the audio stream bytes. -/
structure MP3File where
  tags : Option (List ID3Frame)
  sound : List Nat
deriving DecidableEq

/-- FileOperations.embed_artwork_in_mp3 (file_operations.py 125-169), tag
transformation: add empty tags when absent, delete all APIC frames, then add
one new APIC frame with encoding 3, the supplied MIME, picture type 3 (front
cover), description Cover, and the supplied bytes. -/
def embed_artwork_in_mp3 (tags : Option (List ID3Frame)) (artwork_data : List Nat)
    (mime_type : String) : List ID3Frame :=
  let t := tags.getD []
  let t := t.filter (fun fr => !(isAPIC fr))
  t ++ [ID3Frame.apic 3 mime_type 3 "Cover" artwork_data]

/-- Observable outcome of MP3OutputService.embed_artwork: the source file
after the call, the output file after the call (none when it does not exist),
whether MP3OutputError was raised, and how many times the save was tried. -/
structure ServiceEmbedOutcome where
  sourceAfter : MP3File
  outputAfter : Option MP3File
  raised : Bool
  saveAttempts : Nat
deriving DecidableEq

/-- MP3OutputService.embed_artwork (mp3_output_service.py 26-144): copy the
source to the output path, rewrite the copy's tag to carry exactly one front
cover APIC frame, and save once; on save failure the partial output file is
unlinked and MP3OutputError is raised. `saveOk` models whether persisting the
tag structure succeeds. The source file is only ever read. -/
def service_embed_artwork (source : MP3File) (artwork : List Nat) (mime : String)
    (saveOk : Bool) : ServiceEmbedOutcome :=
  let copied : MP3File := source
  let newTags :=
    ((copied.tags.getD []).filter fun fr => !(isAPIC fr))
      ++ [ID3Frame.apic 3 mime 3 "Front Cover" artwork]
  if saveOk then
    { sourceAfter := source,
      outputAfter := some { tags := some newTags, sound := copied.sound },
      raised := false, saveAttempts := 1 }
  else
    { sourceAfter := source, outputAfter := none, raised := true, saveAttempts := 1 }

/-- Artwork dictionary built by MP3FileHandler.extract_artwork
(file_handler.py 244-250). -/
structure ArtworkInfo where
  data : List Nat
  mime : String
  picType : Nat
  description : String
  size : Nat
deriving DecidableEq

/-- Dictionary for the selected frame, when it is a picture frame. -/
def toArtworkInfo : ID3Frame → Option ArtworkInfo
  | .apic _ mi t ds dt =>
      some { data := dt
             mime := mi
             picType := t
             description := ds
             size := dt.length }
  | .plain _ _ => none

/-- The selection loop of MP3FileHandler.extract_artwork (file_handler.py
226-241): scan the picture frames; stop at the first front cover (type 3);
otherwise remember the frame whose data is strictly the largest seen so far.
The accumulator is (best frame so far, its size, starting at none/0). -/
def selectGo : List ID3Frame → Option ID3Frame → Nat → Option ID3Frame
  | [], largest, _ => largest
  | fr :: rest, largest, lsz =>
    match fr with
    | .apic _ _ t _ d =>
        if t = 3 then some fr
        else if lsz < d.length then selectGo rest (some fr) d.length
        else selectGo rest largest lsz
    | .plain _ _ => selectGo rest largest lsz

/-- MP3FileHandler.extract_artwork (file_handler.py 191-263): an unreadable
file (`none`) or a file without tags yields none; otherwise filter the APIC
frames, return none when there are none, and run the selection loop; the
result dictionary is built only when the loop selected a frame. -/
def extract_artwork (file : Option MP3File) : Option ArtworkInfo :=
  match file with
  | none => none
  | some f =>
    match f.tags with
    | none => none
    | some tags =>
      let frames := tags.filter isAPIC
      if frames.isEmpty then none
      else
        match selectGo frames none 0 with
        | some fr => toArtworkInfo fr
        | none => none

/-- A concrete codec whose every encode is 600000 bytes, used to evaluate the
pipeline on concrete inputs. -/
def constCodec : Codec where
  jpeg := fun _ _ => 600000
  png := fun _ _ _ => 600000
  basic := fun _ _ => 600000

/-- A concrete codec whose JPEG encode is 550000 bytes at quality 40 and
600000 bytes at every other quality: every attempt exceeds MAX_FILE_SIZE and
the smallest attempt is the quality-40 one. -/
def ladderCodec : Codec where
  jpeg := fun _ q => if q = 40 then 550000 else 600000
  png := fun _ _ _ => 600000
  basic := fun _ _ => 600000

/-- A concrete 600 by 600 JPEG buffer of 2000000 bytes (oversized in both
dimensions and size). -/
def bigSquareJpeg : ImageBytes :=
  ⟨2000000, some ⟨600, 600, ImgFormat.JPEG, IMode.RGB⟩⟩

/-- A picture frame of type 4 (back cover) whose image payload is empty. -/
def emptyBackCover : ID3Frame := ID3Frame.apic 0 "image/jpeg" 4 "" []

/-- An MP3 file whose only tag frame is `emptyBackCover`. -/
def emptyBackCoverFile : MP3File where
  tags := some [emptyBackCover]
  sound := [1, 2, 3]

/-! ### Theorems -/

/-- When no frame is a front cover and every frame's payload is within the
running maximum, the selection loop keeps its accumulator. -/
lemma selectGo_no3_le (frames : List ID3Frame) :
    (∀ fr ∈ frames, frameType fr ≠ 3) →
    ∀ acc lsz, (∀ fr ∈ frames, (frameData fr).length ≤ lsz) →
      selectGo frames acc lsz = acc := by
  induction frames with
  | nil => intro _ acc lsz _; rfl
  | cons fr rest ih =>
    intro h3 acc lsz hle
    have h3r : ∀ g ∈ rest, frameType g ≠ 3 := fun g hg => h3 g (List.mem_cons_of_mem _ hg)
    have hler : ∀ g ∈ rest, (frameData g).length ≤ lsz :=
      fun g hg => hle g (List.mem_cons_of_mem _ hg)
    cases fr with
    | apic e mi t ds dt =>
      have ht : ¬ t = 3 := by
        simpa [frameType] using h3 _ (List.mem_cons_self _ _)
      have hlen : dt.length ≤ lsz := by
        simpa [frameData] using hle _ (List.mem_cons_self _ _)
      simpa [selectGo, ht, Nat.not_lt.mpr hlen] using ih h3r acc lsz hler
    | plain i p =>
      simpa [selectGo] using ih h3r acc lsz hler

/-- When no frame is a front cover, all frames are picture frames, and some
frame's payload exceeds the running maximum, the selection loop returns a
frame of maximal payload length. -/
lemma selectGo_no3_max (frames : List ID3Frame) :
    (∀ fr ∈ frames, frameType fr ≠ 3) →
    (∀ fr ∈ frames, isAPIC fr = true) →
    ∀ acc lsz, (∃ fr ∈ frames, lsz < (frameData fr).length) →
      ∃ fr ∈ frames, selectGo frames acc lsz = some fr ∧
        lsz < (frameData fr).length ∧
        ∀ g ∈ frames, (frameData g).length ≤ (frameData fr).length := by
  induction frames with
  | nil =>
    intro _ _ acc lsz hex
    simp at hex
  | cons fr rest ih =>
    intro h3 hA acc lsz hex
    have h3r : ∀ g ∈ rest, frameType g ≠ 3 := fun g hg => h3 g (List.mem_cons_of_mem _ hg)
    have hAr : ∀ g ∈ rest, isAPIC g = true := fun g hg => hA g (List.mem_cons_of_mem _ hg)
    cases fr with
    | plain i p =>
      have := hA _ (List.mem_cons_self _ _)
      simp [isAPIC] at this
    | apic e mi t ds dt =>
      have ht : ¬ t = 3 := by
        simpa [frameType] using h3 _ (List.mem_cons_self _ _)
      by_cases hl : lsz < dt.length
      · by_cases hex2 : ∃ g ∈ rest, dt.length < (frameData g).length
        · obtain ⟨g, hg, hsel, hlt, hmax⟩ :=
            ih h3r hAr (some (ID3Frame.apic e mi t ds dt)) dt.length hex2
          refine ⟨g, List.mem_cons_of_mem _ hg, ?_, lt_trans hl hlt, ?_⟩
          · simpa [selectGo, ht, hl] using hsel
          · intro g' hg'
            rcases List.mem_cons.mp hg' with rfl | hg'
            · simpa [frameData] using le_of_lt hlt
            · exact hmax g' hg'
        · push_neg at hex2
          have hkeep := selectGo_no3_le rest h3r
            (some (ID3Frame.apic e mi t ds dt)) dt.length hex2
          refine ⟨ID3Frame.apic e mi t ds dt, List.mem_cons_self _ _, ?_, ?_, ?_⟩
          · simpa [selectGo, ht, hl] using hkeep
          · simpa [frameData] using hl
          · intro g hg
            rcases List.mem_cons.mp hg with rfl | hg
            · simp [frameData]
            · simpa [frameData] using hex2 g hg
      · have hex' : ∃ g ∈ rest, lsz < (frameData g).length := by
          rcases hex with ⟨g, hg, hlt⟩
          rcases List.mem_cons.mp hg with rfl | hg
          · exact absurd (by simpa [frameData] using hlt) hl
          · exact ⟨g, hg, hlt⟩
        obtain ⟨g, hg, hsel, hlt, hmax⟩ := ih h3r hAr acc lsz hex'
        refine ⟨g, List.mem_cons_of_mem _ hg, ?_, hlt, ?_⟩
        · simpa [selectGo, ht, hl] using hsel
        · intro g' hg'
          rcases List.mem_cons.mp hg' with rfl | hg'
          · have : dt.length ≤ lsz := Nat.not_lt.mp hl
            simpa [frameData] using le_trans this (le_of_lt hlt)
          · exact hmax g' hg'

/-- When the frame list contains a front cover, the selection loop returns
the first one (the loop breaks there). -/
lemma selectGo_front (frames : List ID3Frame) :
    ∀ fr, frames.find? (fun g => frameType g == 3) = some fr →
      ∀ acc lsz, selectGo frames acc lsz = some fr := by
  induction frames with
  | nil => intro fr h; simp at h
  | cons g rest ih =>
    intro fr hf acc lsz
    cases g with
    | apic e mi t ds dt =>
      by_cases ht : t = 3
      · subst ht
        have : fr = ID3Frame.apic e mi 3 ds dt := by
          simp [List.find?_cons, frameType] at hf
          exact hf.symm
        subst this
        simp [selectGo]
      · have hf' : rest.find? (fun g => frameType g == 3) = some fr := by
          simpa [List.find?_cons, frameType, ht] using hf
        by_cases hl : lsz < dt.length <;>
          simpa [selectGo, ht, hl] using ih fr hf' _ _
    | plain i p =>
      have hf' : rest.find? (fun g => frameType g == 3) = some fr := by
        simpa [List.find?_cons, frameType] using hf
      simpa [selectGo] using ih fr hf' _ _

/-- C3 counterexample. A container whose only picture frame is a non-front
cover with an empty payload: picture frames exist and none is a front cover,
yet extraction returns none instead of the largest frame. -/
theorem extract_largest_counterexample :
    (emptyBackCoverFile.tags.getD []).filter isAPIC ≠ [] ∧
    (∀ fr ∈ (emptyBackCoverFile.tags.getD []).filter isAPIC, frameType fr ≠ 3) ∧
    extract_artwork (some emptyBackCoverFile) = none := by
  decide

/-- C3 amended. Extraction returns none on a missing or malformed container
and on a container without picture frames; it returns the first front-cover
frame when one exists; with no front cover it returns a frame of maximal
payload length provided some picture frame has a nonempty payload; when no
front cover exists and every picture frame's payload is empty it returns
none (the strictly-greater size tracking never selects a frame). -/
theorem extract_artwork_selection :
    (extract_artwork none = none) ∧
    (∀ f : MP3File, f.tags = none → extract_artwork (some f) = none) ∧
    (∀ (f : MP3File) (tags : List ID3Frame), f.tags = some tags →
      (tags.filter isAPIC = [] → extract_artwork (some f) = none) ∧
      (∀ fr, (tags.filter isAPIC).find? (fun g => frameType g == 3) = some fr →
          extract_artwork (some f) = toArtworkInfo fr) ∧
      ((tags.filter isAPIC).find? (fun g => frameType g == 3) = none →
        (∃ fr ∈ tags.filter isAPIC, 0 < (frameData fr).length) →
        ∃ fr ∈ tags.filter isAPIC, extract_artwork (some f) = toArtworkInfo fr ∧
          ∀ g ∈ tags.filter isAPIC, (frameData g).length ≤ (frameData fr).length) ∧
      ((tags.filter isAPIC).find? (fun g => frameType g == 3) = none →
        (∀ fr ∈ tags.filter isAPIC, (frameData fr).length = 0) →
        extract_artwork (some f) = none)) := by
  refine ⟨rfl, fun f hf => by simp [extract_artwork, hf], ?_⟩
  intro f tags hf
  have hA : ∀ fr ∈ tags.filter isAPIC, isAPIC fr = true :=
    fun fr hfr => List.of_mem_filter hfr
  refine ⟨?_, ?_, ?_, ?_⟩
  · intro hnil
    simp [extract_artwork, hf, hnil]
  · intro fr hfind
    have hsel := selectGo_front _ fr hfind none 0
    have hne : tags.filter isAPIC ≠ [] := by
      intro hnil
      rw [hnil] at hfind
      simp at hfind
    simp [extract_artwork, hf, List.isEmpty_iff, hne, hsel]
  · intro hnone hex
    have h3 : ∀ fr ∈ tags.filter isAPIC, frameType fr ≠ 3 := by
      intro fr hfr h3
      have := List.find?_eq_none.mp hnone fr hfr
      simp [h3] at this
    obtain ⟨fr, hfr, hsel, _, hmax⟩ := selectGo_no3_max _ h3 hA none 0 hex
    have hne : tags.filter isAPIC ≠ [] := by
      intro hnil
      rw [hnil] at hfr
      simp at hfr
    refine ⟨fr, hfr, ?_, hmax⟩
    simp [extract_artwork, hf, List.isEmpty_iff, hne, hsel]
  · intro hnone hzero
    have h3 : ∀ fr ∈ tags.filter isAPIC, frameType fr ≠ 3 := by
      intro fr hfr h3
      have := List.find?_eq_none.mp hnone fr hfr
      simp [h3] at this
    have hkeep := selectGo_no3_le _ h3 none 0 (fun fr hfr => le_of_eq (hzero fr hfr))
    by_cases hne : tags.filter isAPIC = []
    · simp [extract_artwork, hf, hne]
    · simp [extract_artwork, hf, List.isEmpty_iff, hne, hkeep]

/-- When every quality in the list encodes above the budget, the ladder
records one attempt per quality and reports no fit. -/
lemma jpegLadder_all_fail (encJ : Nat → Nat) (L : List Nat)
    (h : ∀ q ∈ L, MAX_FILE_SIZE < encJ q) :
    jpegLadder encJ L = (L.map fun q => TraceEntry.jpegAttempt q (encJ q), none) := by
  induction L with
  | nil => rfl
  | cons q rest ih =>
    have hq := h q (List.mem_cons_self _ _)
    have hrest := ih (fun x hx => h x (List.mem_cons_of_mem _ hx))
    simp [jpegLadder, Nat.not_le.mpr hq, hrest]

/-- When some quality in the list encodes within the budget, the ladder stops
at the first such quality: the list splits as pre ++ q :: post with every
earlier attempt failing, and the trace records exactly the tried attempts
followed by the final-quality marker. -/
lemma jpegLadder_spec (encJ : Nat → Nat) (L : List Nat)
    (hex : ∃ q ∈ L, encJ q ≤ MAX_FILE_SIZE) :
    ∃ pre q post, L = pre ++ q :: post ∧
      (∀ x ∈ pre, MAX_FILE_SIZE < encJ x) ∧ encJ q ≤ MAX_FILE_SIZE ∧
      jpegLadder encJ L =
        (pre.map (fun x => TraceEntry.jpegAttempt x (encJ x))
          ++ [TraceEntry.jpegAttempt q (encJ q), TraceEntry.jpegFinalQuality q],
         some (q, encJ q)) := by
  induction L with
  | nil => simp at hex
  | cons a rest ih =>
    by_cases ha : encJ a ≤ MAX_FILE_SIZE
    · exact ⟨[], a, rest, rfl, by simp, ha, by simp [jpegLadder, ha]⟩
    · have hex' : ∃ q ∈ rest, encJ q ≤ MAX_FILE_SIZE := by
        rcases hex with ⟨q, hq, hfit⟩
        rcases List.mem_cons.mp hq with rfl | hq
        · exact absurd hfit ha
        · exact ⟨q, hq, hfit⟩
      obtain ⟨pre, q, post, hL, hpre, hfit, heq⟩ := ih hex'
      refine ⟨a :: pre, q, post, by rw [List.cons_append, hL], ?_, hfit, ?_⟩
      · intro x hx
        rcases List.mem_cons.mp hx with rfl | hx
        · exact Nat.not_le.mp ha
        · exact hpre x hx
      · simp [jpegLadder, ha, heq]

/-- C6. When some ladder quality meets the budget, the JPEG byte-budget
search walks the descending ladder 95..40 in steps of 5, re-encoding and
measuring at each tried quality, returns at the first attempt whose size is
within MAX_FILE_SIZE and records that quality; hence the returned quality is
the highest ladder quality meeting the budget, and when quality 95 already
fits, the single 95 attempt is the whole search. -/
theorem jpeg_quality_ladder (encJ : Nat → Nat)
    (hex : ∃ q ∈ quality_levels, encJ q ≤ MAX_FILE_SIZE) :
    quality_levels = [95, 90, 85, 80, 75, 70, 65, 60, 55, 50, 45, 40] ∧
    (optimize_jpeg encJ).quality ∈ quality_levels ∧
    (optimize_jpeg encJ).size = encJ (optimize_jpeg encJ).quality ∧
    (optimize_jpeg encJ).size ≤ MAX_FILE_SIZE ∧
    (∀ q ∈ quality_levels, encJ q ≤ MAX_FILE_SIZE →
        q ≤ (optimize_jpeg encJ).quality) ∧
    (∃ pre post, quality_levels = pre ++ (optimize_jpeg encJ).quality :: post ∧
      (∀ x ∈ pre, MAX_FILE_SIZE < encJ x) ∧
      (optimize_jpeg encJ).trace =
        pre.map (fun x => TraceEntry.jpegAttempt x (encJ x))
          ++ [TraceEntry.jpegAttempt (optimize_jpeg encJ).quality
                (encJ (optimize_jpeg encJ).quality),
              TraceEntry.jpegFinalQuality (optimize_jpeg encJ).quality]) ∧
    (encJ 95 ≤ MAX_FILE_SIZE →
      (optimize_jpeg encJ).quality = 95 ∧
      (optimize_jpeg encJ).trace =
        [TraceEntry.jpegAttempt 95 (encJ 95), TraceEntry.jpegFinalQuality 95]) := by
  obtain ⟨pre, q, post, hL, hpre, hfit, heq⟩ := jpegLadder_spec encJ quality_levels hex
  have hopt : optimize_jpeg encJ =
      { trace := pre.map (fun x => TraceEntry.jpegAttempt x (encJ x))
          ++ [TraceEntry.jpegAttempt q (encJ q), TraceEntry.jpegFinalQuality q],
        quality := q, size := encJ q } := by
    simp [optimize_jpeg, heq]
  have hmemq : q ∈ quality_levels := by
    rw [hL]
    exact List.mem_append_right _ (List.mem_cons_self _ _)
  refine ⟨rfl, by rw [hopt]; exact hmemq, by rw [hopt], by rw [hopt]; exact hfit,
    ?_, ?_, ?_⟩
  · intro x hx hxfit
    rw [hopt]
    have hsorted : List.Pairwise (fun a b => b < a) quality_levels := by decide
    rw [hL] at hsorted hx
    rcases List.mem_append.mp hx with hx | hx
    · exact absurd hxfit (Nat.not_le.mpr (hpre x hx))
    · rcases List.mem_cons.mp hx with rfl | hx
      · exact le_refl _
      · have := (List.pairwise_cons.mp (List.pairwise_append.mp hsorted).2.1).1 x hx
        exact le_of_lt this
  · exact ⟨pre, post, by rw [hopt]; exact hL, hpre, by rw [hopt]⟩
  · intro h95
    cases pre with
    | nil =>
      have hq : q = 95 := by
        have := hL
        simp [quality_levels] at this
        exact this.1.symm
      subst hq
      exact ⟨by rw [hopt], by rw [hopt]; simp⟩
    | cons x xs =>
      have hx95 : x = 95 := by
        have := hL
        simp [quality_levels, List.cons_append] at this
        exact this.1.symm
      subst hx95
      exact absurd h95 (Nat.not_le.mpr (hpre 95 (List.mem_cons_self _ _)))

/-- C7 amended. When no ladder quality meets the budget, the search records
every ladder attempt, then performs one additional forced encode at quality
30 and returns that result (not necessarily the smallest attempt so far);
the orchestrator reports a still-non-compliant optimization by exposing the
full processing info and trace but setting processed_data to none — the
degraded bytes are returned by the optimizer itself, not by process_artwork. -/
theorem jpeg_budget_exhausted :
    (∀ encJ : Nat → Nat, (∀ q ∈ quality_levels, MAX_FILE_SIZE < encJ q) →
      optimize_jpeg encJ =
        { trace := quality_levels.map (fun q => TraceEntry.jpegAttempt q (encJ q))
            ++ [TraceEntry.jpegForcedFinal],
          quality := 30, size := encJ 30 }) ∧
    (∀ (c : Codec) (d : ImageBytes),
      (validate_artwork d).1 = false →
      (validate_artwork (resize_and_optimize c d none).1).1 = false →
      process_artwork c d true =
        { is_compliant := false, processed_data := none,
          original_info := get_image_info d,
          processing_info := some (resize_and_optimize c d none).2,
          validation_issues := (validate_artwork d).2,
          needs_processing := true }) := by
  constructor
  · intro encJ hall
    simp [optimize_jpeg, jpegLadder_all_fail encJ quality_levels hall]
  · intro c d hv hv2
    simp [process_artwork, hv, hv2]

/-- Witness for `jpeg_budget_exhausted` with the ladder codec on the
oversized square JPEG. -/
theorem jpeg_budget_exhausted_witness :
    (optimize_jpeg (fun q => if q = 40 then 550000 else 600000)).quality = 30 ∧
    (process_artwork ladderCodec bigSquareJpeg true).processed_data = none := by
  constructor
  · rw [jpeg_budget_exhausted.1 (fun q => if q = 40 then 550000 else 600000)
      (by decide)]
  · rw [jpeg_budget_exhausted.2 ladderCodec bigSquareJpeg (by decide) (by decide)]

/-- C7 counterexample. With an encoder whose ladder attempts are 600000
bytes except 550000 at quality 40, no attempt meets the budget; the bytes
returned by optimize are the forced quality-30 encode of 600000 bytes — not
the smallest (550000-byte) result achieved during the search — and the
orchestrator exposes no degraded bytes at all: processed_data is none. -/
theorem degraded_result_hidden :
    TraceEntry.jpegAttempt 40 550000 ∈
        (resize_and_optimize ladderCodec bigSquareJpeg none).2.quality_adjustments ∧
    (resize_and_optimize ladderCodec bigSquareJpeg none).1.size = 600000 ∧
    550000 < 600000 ∧
    (process_artwork ladderCodec bigSquareJpeg true).processed_data = none ∧
    (process_artwork ladderCodec bigSquareJpeg true).is_compliant = false := by
  decide

/-- Witness for `extract_artwork_selection`: with two back covers of sizes 2
and 1, extraction returns a frame of maximal payload length. -/
theorem extract_artwork_selection_witness :
    ∃ fr ∈ ([ID3Frame.apic 0 "image/jpeg" 4 "" [1, 2],
             ID3Frame.apic 0 "image/png" 4 "" [5]] : List ID3Frame).filter isAPIC,
      extract_artwork (some ⟨some [ID3Frame.apic 0 "image/jpeg" 4 "" [1, 2],
        ID3Frame.apic 0 "image/png" 4 "" [5]], []⟩) = toArtworkInfo fr ∧
      ∀ g ∈ ([ID3Frame.apic 0 "image/jpeg" 4 "" [1, 2],
              ID3Frame.apic 0 "image/png" 4 "" [5]] : List ID3Frame).filter isAPIC,
        (frameData g).length ≤ (frameData fr).length :=
  ((extract_artwork_selection.2.2 _ _ rfl).2.2.1 (by decide) (by decide))

/-- C1. For every source container, embedding artwork yields a tag whose only
attached-picture frame is the single new front-cover (type 3) frame carrying
the supplied bytes and MIME; every previously present picture frame is
removed and every non-picture frame is kept byte-equal. -/
theorem embed_single_front_cover (tags : Option (List ID3Frame))
    (artwork : List Nat) (mime : String) :
    (embed_artwork_in_mp3 tags artwork mime).filter isAPIC
        = [ID3Frame.apic 3 mime 3 "Cover" artwork] ∧
    ((embed_artwork_in_mp3 tags artwork mime).filter isAPIC).length = 1 ∧
    frameType (ID3Frame.apic 3 mime 3 "Cover" artwork) = 3 ∧
    (embed_artwork_in_mp3 tags artwork mime).filter (fun fr => !(isAPIC fr))
        = (tags.getD []).filter (fun fr => !(isAPIC fr)) := by
  refine ⟨?_, ?_, rfl, ?_⟩ <;>
    simp [embed_artwork_in_mp3, List.filter_append, List.filter_filter, isAPIC]

/-- C2. When persisting the tag structure fails, the service deletes the
partial output file, leaves the source file untouched, and surfaces the
failure by raising; the save is attempted exactly once regardless of the
outcome, and the source is unchanged also on success. -/
theorem persist_failure_cleanup (source : MP3File) (artwork : List Nat)
    (mime : String) :
    service_embed_artwork source artwork mime false =
      { sourceAfter := source, outputAfter := none, raised := true,
        saveAttempts := 1 } ∧
    (∀ saveOk, (service_embed_artwork source artwork mime saveOk).sourceAfter
        = source) ∧
    (∀ saveOk, (service_embed_artwork source artwork mime saveOk).saveAttempts
        = 1) := by
  refine ⟨rfl, ?_, ?_⟩ <;> intro saveOk <;> cases saveOk <;> rfl

/-- C4 counterexample. On an undecodable byte string longer than
MAX_FILE_SIZE, validate_artwork reports the size issue in addition to the
corrupt issue: the issue list is not [corrupt] alone, because the size check
runs before decoding is attempted. -/
theorem validate_corrupt_counterexample :
    validate_artwork ⟨MAX_FILE_SIZE + 1, none⟩
        = (false, [Issue.tooLarge, Issue.corrupt]) ∧
    [Issue.tooLarge, Issue.corrupt] ≠ [Issue.corrupt] := by
  exact ⟨rfl, by decide⟩

/-- C4 amended. For every undecodable input, validate_artwork returns
ok = false with the corrupt issue and no dimension or format issue; the
issue list is exactly [corrupt] when the byte length is within MAX_FILE_SIZE,
and [tooLarge, corrupt] when it exceeds it (the size check precedes the
decode attempt). -/
theorem validate_corrupt_behavior (d : ImageBytes) (hd : d.decoded = none) :
    (validate_artwork d).1 = false ∧
    (validate_artwork d).2 =
      (if MAX_FILE_SIZE < d.size then [Issue.tooLarge] else []) ++ [Issue.corrupt] ∧
    (d.size ≤ MAX_FILE_SIZE → (validate_artwork d).2 = [Issue.corrupt]) ∧
    Issue.tooWide ∉ (validate_artwork d).2 ∧
    Issue.tooTall ∉ (validate_artwork d).2 ∧
    Issue.unsupportedFormat ∉ (validate_artwork d).2 := by
  rcases Nat.lt_or_ge MAX_FILE_SIZE d.size with h | h
  · simp [validate_artwork, hd, h, Nat.not_le.mpr h]
  · simp [validate_artwork, hd, Nat.not_lt.mpr h, h]

/-- Witness for `validate_corrupt_behavior` at a small undecodable input. -/
theorem validate_corrupt_behavior_witness :
    (validate_artwork ⟨5, none⟩).1 = false ∧
    (validate_artwork ⟨5, none⟩).2 = [Issue.corrupt] := by
  have h := validate_corrupt_behavior ⟨5, none⟩ rfl
  exact ⟨h.1, h.2.2.1 (by decide)⟩

/-- C8. Every decodable image within the dimension and size bounds whose
format is JPEG or PNG validates with an empty issue list, and for every
input the returned flag is true exactly when the issue list is empty. -/
theorem validate_ok_characterization :
    (∀ (d : ImageBytes) (img : DecodedImage), d.decoded = some img →
        img.width ≤ MAX_WIDTH → img.height ≤ MAX_HEIGHT →
        d.size ≤ MAX_FILE_SIZE →
        (img.format = ImgFormat.JPEG ∨ img.format = ImgFormat.PNG) →
        validate_artwork d = (true, [])) ∧
    (∀ d : ImageBytes, (validate_artwork d).1 = true ↔ (validate_artwork d).2 = []) := by
  constructor
  · intro d img hd hw hh hs hf
    have hfmt : supportedFormat img.format = true := by
      rcases hf with h | h <;> simp [supportedFormat, h]
    simp [validate_artwork, hd, hfmt, Nat.not_lt.mpr hw, Nat.not_lt.mpr hh,
      Nat.not_lt.mpr hs]
  · intro d
    simp [validate_artwork, List.isEmpty_iff]

/-- Witness for `validate_ok_characterization` at a compliant 300 by 200
JPEG of 50000 bytes. -/
theorem validate_ok_characterization_witness :
    validate_artwork ⟨50000, some ⟨300, 200, ImgFormat.JPEG, IMode.RGB⟩⟩
      = (true, []) :=
  validate_ok_characterization.1 _ ⟨300, 200, ImgFormat.JPEG, IMode.RGB⟩ rfl
    (by decide) (by decide) (by decide) (Or.inl rfl)

/-- C10. On every input whose bytes cannot be decoded, resize_and_optimize
does not fail: it returns the original bytes unchanged together with a
processing-info record whose error field is set. -/
theorem optimize_decode_failure (c : Codec) (d : ImageBytes)
    (tf : Option ImgFormat) (hd : d.decoded = none) :
    resize_and_optimize c d tf =
      (d, { original_size_bytes := d.size, original_dimensions := none,
            final_size_bytes := 0, final_dimensions := none,
            format_changed := false, resized := false, quality_adjustments := [],
            error := some "cannot identify image file" }) := by
  simp [resize_and_optimize, hd]

/-- Witness for `optimize_decode_failure` on a 12-byte undecodable input. -/
theorem optimize_decode_failure_witness :
    resize_and_optimize constCodec ⟨12, none⟩ none =
      (⟨12, none⟩,
       { original_size_bytes := 12, original_dimensions := none,
         final_size_bytes := 0, final_dimensions := none,
         format_changed := false, resized := false, quality_adjustments := [],
         error := some "cannot identify image file" }) :=
  optimize_decode_failure constCodec ⟨12, none⟩ none rfl

/-- An image already within bounds is not resized. -/
lemma resizeDims_within (w h : Nat) (hw : w ≤ MAX_WIDTH) (hh : h ≤ MAX_HEIGHT) :
    resizeDims w h = (w, h) := by
  simp [resizeDims, Nat.not_lt.mpr hw, Nat.not_lt.mpr hh]

/-- Both resized dimensions are within the bounds. -/
lemma resizeDims_bounds (w h : Nat) (hw : 1 ≤ w) (hh : 1 ≤ h) :
    (resizeDims w h).1 ≤ MAX_WIDTH ∧ (resizeDims w h).2 ≤ MAX_HEIGHT := by
  by_cases htrig : MAX_WIDTH < w ∨ MAX_HEIGHT < h
  · have hw0 : (0:ℚ) < (w:ℚ) := by exact_mod_cast hw
    have hh0 : (0:ℚ) < (h:ℚ) := by exact_mod_cast hh
    have hsw : (w:ℚ) * min ((MAX_WIDTH : ℚ) / (w : ℚ)) ((MAX_HEIGHT : ℚ) / (h : ℚ))
        ≤ 500 := by
      have h1 : min ((MAX_WIDTH : ℚ) / (w : ℚ)) ((MAX_HEIGHT : ℚ) / (h : ℚ))
          ≤ (MAX_WIDTH:ℚ)/(w:ℚ) := min_le_left _ _
      have h2 : (w:ℚ) * ((MAX_WIDTH:ℚ)/(w:ℚ)) = 500 := by
        have h500 : (MAX_WIDTH:ℚ) = 500 := by norm_num [MAX_WIDTH]
        rw [h500]
        field_simp
      calc (w:ℚ) * min ((MAX_WIDTH : ℚ) / (w : ℚ)) ((MAX_HEIGHT : ℚ) / (h : ℚ))
          ≤ (w:ℚ) * ((MAX_WIDTH:ℚ)/(w:ℚ)) :=
            mul_le_mul_of_nonneg_left h1 (le_of_lt hw0)
        _ = 500 := h2
    have hsh : (h:ℚ) * min ((MAX_WIDTH : ℚ) / (w : ℚ)) ((MAX_HEIGHT : ℚ) / (h : ℚ))
        ≤ 500 := by
      have h1 : min ((MAX_WIDTH : ℚ) / (w : ℚ)) ((MAX_HEIGHT : ℚ) / (h : ℚ))
          ≤ (MAX_HEIGHT:ℚ)/(h:ℚ) := min_le_right _ _
      have h2 : (h:ℚ) * ((MAX_HEIGHT:ℚ)/(h:ℚ)) = 500 := by
        have h500 : (MAX_HEIGHT:ℚ) = 500 := by norm_num [MAX_HEIGHT]
        rw [h500]
        field_simp
      calc (h:ℚ) * min ((MAX_WIDTH : ℚ) / (w : ℚ)) ((MAX_HEIGHT : ℚ) / (h : ℚ))
          ≤ (h:ℚ) * ((MAX_HEIGHT:ℚ)/(h:ℚ)) :=
            mul_le_mul_of_nonneg_left h1 (le_of_lt hh0)
        _ = 500 := h2
    have hf1 : ⌊(w:ℚ) * min ((MAX_WIDTH : ℚ) / (w : ℚ)) ((MAX_HEIGHT : ℚ) / (h : ℚ))⌋
        ≤ (500:ℤ) := by
      have := Int.floor_le_floor (α := ℚ) hsw
      simpa using this
    have hf2 : ⌊(h:ℚ) * min ((MAX_WIDTH : ℚ) / (w : ℚ)) ((MAX_HEIGHT : ℚ) / (h : ℚ))⌋
        ≤ (500:ℤ) := by
      have := Int.floor_le_floor (α := ℚ) hsh
      simpa using this
    have hr : resizeDims w h
        = ((⌊(w:ℚ) * min ((MAX_WIDTH:ℚ)/(w:ℚ)) ((MAX_HEIGHT:ℚ)/(h:ℚ))⌋).toNat,
           (⌊(h:ℚ) * min ((MAX_WIDTH:ℚ)/(w:ℚ)) ((MAX_HEIGHT:ℚ)/(h:ℚ))⌋).toNat) := by
      unfold resizeDims
      rw [if_pos htrig]
    rw [hr]
    constructor
    · show _ ≤ (500:ℕ)
      exact Int.toNat_le.mpr (by exact_mod_cast hf1)
    · show _ ≤ (500:ℕ)
      exact Int.toNat_le.mpr (by exact_mod_cast hf2)
  · push_neg at htrig
    rw [resizeDims_within w h htrig.1 htrig.2]
    exact ⟨htrig.1, htrig.2⟩

/-- On a triggered resize of an image at least as tall as wide, the height
maps exactly to the bound and the width to the floor of the scaled value. -/
lemma resizeDims_tall (w h : Nat) (hw : 1 ≤ w) (hwh : w ≤ h)
    (htrig : MAX_WIDTH < w ∨ MAX_HEIGHT < h) :
    resizeDims w h = ((⌊(w:ℚ) * ((MAX_HEIGHT:ℚ) / (h:ℚ))⌋).toNat, MAX_HEIGHT) := by
  have hh : 1 ≤ h := le_trans hw hwh
  have hw0 : (0:ℚ) < (w:ℚ) := by exact_mod_cast hw
  have hh0 : (0:ℚ) < (h:ℚ) := by exact_mod_cast hh
  have hmin : min ((MAX_WIDTH:ℚ)/(w:ℚ)) ((MAX_HEIGHT:ℚ)/(h:ℚ))
      = (MAX_HEIGHT:ℚ)/(h:ℚ) := by
    apply min_eq_right
    rw [div_le_div_iff hh0 hw0]
    have hWH : (MAX_HEIGHT:ℚ) = (MAX_WIDTH:ℚ) := by norm_num [MAX_WIDTH, MAX_HEIGHT]
    rw [hWH]
    exact mul_le_mul_of_nonneg_left (by exact_mod_cast hwh) (by positivity)
  simp only [resizeDims, if_pos htrig, hmin]
  have hexact : (h:ℚ) * ((MAX_HEIGHT:ℚ)/(h:ℚ)) = (MAX_HEIGHT:ℚ) := by
    field_simp
  rw [hexact]
  have : ⌊(MAX_HEIGHT:ℚ)⌋ = (MAX_HEIGHT:ℤ) := Int.floor_natCast _
  rw [this]
  simp

/-- On a triggered resize of an image wider than tall, the width maps
exactly to the bound and the height to the floor of the scaled value. -/
lemma resizeDims_wide (w h : Nat) (hh : 1 ≤ h) (hwh : h < w)
    (htrig : MAX_WIDTH < w ∨ MAX_HEIGHT < h) :
    resizeDims w h = (MAX_WIDTH, (⌊(h:ℚ) * ((MAX_WIDTH:ℚ) / (w:ℚ))⌋).toNat) := by
  have hw : 1 ≤ w := le_trans hh (le_of_lt hwh)
  have hw0 : (0:ℚ) < (w:ℚ) := by exact_mod_cast hw
  have hh0 : (0:ℚ) < (h:ℚ) := by exact_mod_cast hh
  have hmin : min ((MAX_WIDTH:ℚ)/(w:ℚ)) ((MAX_HEIGHT:ℚ)/(h:ℚ))
      = (MAX_WIDTH:ℚ)/(w:ℚ) := by
    apply min_eq_left
    rw [div_le_div_iff hw0 hh0]
    have hWH : (MAX_WIDTH:ℚ) = (MAX_HEIGHT:ℚ) := by norm_num [MAX_WIDTH, MAX_HEIGHT]
    rw [hWH]
    exact mul_le_mul_of_nonneg_left (by exact_mod_cast (le_of_lt hwh)) (by positivity)
  simp only [resizeDims, if_pos htrig, hmin]
  have hexact : (w:ℚ) * ((MAX_WIDTH:ℚ)/(w:ℚ)) = (MAX_WIDTH:ℚ) := by
    field_simp
  rw [hexact]
  have : ⌊(MAX_WIDTH:ℚ)⌋ = (MAX_WIDTH:ℤ) := Int.floor_natCast _
  rw [this]
  simp

/-- Whenever the width is at most twice the height, the truncated resize
changes the aspect ratio by less than 1/100. -/
lemma resizeDims_aspect (w h : Nat) (hw : 1 ≤ w) (hh : 1 ≤ h) (hc : w ≤ 2 * h) :
    |aspect w h - aspect (resizeDims w h).1 (resizeDims w h).2| < 1/100 := by
  have hw0 : (0:ℚ) < (w:ℚ) := by exact_mod_cast hw
  have hh0 : (0:ℚ) < (h:ℚ) := by exact_mod_cast hh
  by_cases htrig : MAX_WIDTH < w ∨ MAX_HEIGHT < h
  · by_cases hwh : w ≤ h
    · rw [resizeDims_tall w h hw hwh htrig]
      have h500 : (MAX_HEIGHT:ℚ) = 500 := by norm_num [MAX_HEIGHT]
      set t : ℚ := (w:ℚ) * ((MAX_HEIGHT:ℚ)/(h:ℚ)) with hts
      have ht0 : 0 ≤ t := by rw [hts]; positivity
      have hfl : (0:ℤ) ≤ ⌊t⌋ := Int.floor_nonneg.mpr ht0
      have hcast : (((⌊t⌋).toNat : ℕ) : ℚ) = ((⌊t⌋ : ℤ) : ℚ) := by
        exact_mod_cast congrArg (fun z : ℤ => (z : ℚ)) (Int.toNat_of_nonneg hfl)
      have h1 : ((⌊t⌋ : ℤ) : ℚ) ≤ t := Int.floor_le t
      have h2 : t < (⌊t⌋ : ℤ) + 1 := Int.lt_floor_add_one t
      have hwh_eq : (w:ℚ)/(h:ℚ) = t/500 := by
        rw [hts, h500]
        field_simp
        ring
      show |(w:ℚ)/(h:ℚ) - ((⌊t⌋).toNat : ℚ)/((MAX_HEIGHT:ℕ) : ℚ)| < 1/100
      rw [hwh_eq, hcast, h500, div_sub_div_same]
      rw [abs_of_nonneg (div_nonneg (sub_nonneg.mpr h1) (by norm_num))]
      rw [div_lt_iff (by norm_num : (0:ℚ) < 500)]
      linarith
    · push_neg at hwh
      rw [resizeDims_wide w h hh hwh htrig]
      have h500 : (MAX_WIDTH:ℚ) = 500 := by norm_num [MAX_WIDTH]
      set t : ℚ := (h:ℚ) * ((MAX_WIDTH:ℚ)/(w:ℚ)) with hts
      have ht : t = (500 * (h:ℚ))/(w:ℚ) := by
        rw [hts, h500]
        ring
      have h250 : (250:ℚ) ≤ t := by
        rw [ht, le_div_iff hw0]
        have : (w:ℚ) ≤ 2 * (h:ℚ) := by exact_mod_cast hc
        linarith
      have htpos : (0:ℚ) < t := lt_of_lt_of_le (by norm_num) h250
      have hn250 : (250:ℤ) ≤ ⌊t⌋ := by
        apply Int.le_floor.mpr
        exact_mod_cast h250
      have hfl : (0:ℤ) ≤ ⌊t⌋ := le_trans (by norm_num) hn250
      have hcast : (((⌊t⌋).toNat : ℕ) : ℚ) = ((⌊t⌋ : ℤ) : ℚ) := by
        exact_mod_cast congrArg (fun z : ℤ => (z : ℚ)) (Int.toNat_of_nonneg hfl)
      have hn250Q : (250:ℚ) ≤ ((⌊t⌋ : ℤ) : ℚ) := by exact_mod_cast hn250
      have hnpos : (0:ℚ) < ((⌊t⌋ : ℤ) : ℚ) := lt_of_lt_of_le (by norm_num) hn250Q
      have h1 : ((⌊t⌋ : ℤ) : ℚ) ≤ t := Int.floor_le t
      have h2 : t < ((⌊t⌋ : ℤ) : ℚ) + 1 := Int.lt_floor_add_one t
      have hwh_eq : (w:ℚ)/(h:ℚ) = 500/t := by
        rw [ht, div_div_eq_mul_div, mul_div_mul_left _ _ (by norm_num : (500:ℚ) ≠ 0)]
      show |(w:ℚ)/(h:ℚ) - ((MAX_WIDTH:ℕ) : ℚ)/(((⌊t⌋).toNat : ℕ) : ℚ)| < 1/100
      rw [hwh_eq, hcast, h500, abs_sub_comm]
      have hle : 500/t ≤ 500/((⌊t⌋ : ℤ) : ℚ) := by
        rw [div_le_div_iff htpos hnpos]
        linarith
      rw [abs_of_nonneg (sub_nonneg.mpr hle)]
      have heq : 500/((⌊t⌋ : ℤ) : ℚ) - 500/t
          = (500*t - ((⌊t⌋ : ℤ) : ℚ)*500)/(((⌊t⌋ : ℤ) : ℚ)*t) :=
        div_sub_div _ _ hnpos.ne' htpos.ne'
      rw [heq, div_lt_iff (by positivity)]
      have hprod : (250:ℚ)*250 ≤ ((⌊t⌋ : ℤ) : ℚ)*t :=
        mul_le_mul hn250Q h250 (by norm_num) (le_of_lt hnpos)
      nlinarith
  · push_neg at htrig
    rw [resizeDims_within w h htrig.1 htrig.2]
    simp

/-- C5 counterexample. A decodable 999 by 3 JPEG is resized to 500 by 1: the
truncation of the scaled height changes the aspect ratio from 333 to 500, far
beyond the 0.01 tolerance the claim states for every decodable image. -/
theorem resize_aspect_counterexample :
    (resize_and_optimize constCodec
        ⟨2000000, some ⟨999, 3, ImgFormat.JPEG, IMode.RGB⟩⟩ none).2.final_dimensions
      = some (500, 1) ∧
    ¬ (|aspect 999 3 - aspect 500 1| < 1/100) := by
  have hr : resizeDims 999 3 = (500, 1) := by
    rw [resizeDims_wide 999 3 (by norm_num) (by norm_num)
      (Or.inl (by norm_num [MAX_WIDTH]))]
    have h1 : (((3:ℕ)):ℚ) * ((MAX_WIDTH:ℚ)/(((999:ℕ)):ℚ)) = 500/333 := by
      norm_num [MAX_WIDTH]
    rw [h1]
    have h2 : ⌊(500:ℚ)/333⌋ = 1 := by
      rw [Int.floor_eq_iff]
      constructor <;> norm_num
    rw [h2]
    rfl
  constructor
  · simp [resize_and_optimize, hr]
  · simp only [aspect]
    norm_num

/-- C5 amended. Optimization resizes exactly when a dimension exceeds its
bound; the scaled dimensions are the integer truncations of width and height
multiplied by the uniform factor min(max_width/width, max_height/height);
the output dimensions respect both bounds and an in-bounds image is never
upscaled; the 0.01 aspect-ratio bound holds whenever the width is at most
twice the height, but truncation may break it for wider images. -/
theorem resize_behavior (c : Codec) (d : ImageBytes) (img : DecodedImage)
    (hd : d.decoded = some img) (hw : 1 ≤ img.width) (hh : 1 ≤ img.height) :
    ((resize_and_optimize c d none).2.final_dimensions
        = some (resizeDims img.width img.height)) ∧
    ((resize_and_optimize c d none).2.resized
        = decide (MAX_WIDTH < img.width ∨ MAX_HEIGHT < img.height)) ∧
    (img.width ≤ MAX_WIDTH → img.height ≤ MAX_HEIGHT →
        resizeDims img.width img.height = (img.width, img.height)) ∧
    (resizeDims img.width img.height).1 ≤ MAX_WIDTH ∧
    (resizeDims img.width img.height).2 ≤ MAX_HEIGHT ∧
    (img.width ≤ 2 * img.height →
      |aspect img.width img.height
          - aspect (resizeDims img.width img.height).1
              (resizeDims img.width img.height).2| < 1/100) := by
  obtain ⟨hb1, hb2⟩ := resizeDims_bounds img.width img.height hw hh
  refine ⟨?_, ?_, fun h1 h2 => resizeDims_within _ _ h1 h2, hb1, hb2,
    fun hc => resizeDims_aspect _ _ hw hh hc⟩
  · simp [resize_and_optimize, hd]
  · simp [resize_and_optimize, hd]

/-- Witness for `resize_behavior` on a 1000 by 800 JPEG. -/
theorem resize_behavior_witness :
    (resize_and_optimize constCodec
        ⟨2000000, some ⟨1000, 800, ImgFormat.JPEG, IMode.RGB⟩⟩ none).2.final_dimensions
      = some (resizeDims 1000 800) ∧
    (resizeDims 1000 800).1 ≤ MAX_WIDTH ∧
    (resizeDims 1000 800).2 ≤ MAX_HEIGHT ∧
    |aspect 1000 800 - aspect (resizeDims 1000 800).1 (resizeDims 1000 800).2|
      < 1/100 := by
  have h := resize_behavior constCodec
    ⟨2000000, some ⟨1000, 800, ImgFormat.JPEG, IMode.RGB⟩⟩
    ⟨1000, 800, ImgFormat.JPEG, IMode.RGB⟩ rfl (by decide) (by decide)
  exact ⟨h.1, h.2.2.2.1, h.2.2.2.2.1, h.2.2.2.2.2 (by decide)⟩

/-- The validation flag is true exactly when the issue list is empty. -/
lemma validate_ok_iff (d : ImageBytes) :
    (validate_artwork d).1 = true ↔ (validate_artwork d).2 = [] := by
  simp [validate_artwork, List.isEmpty_iff]

/-- A validation pass certifies the size, format and dimension bounds. -/
lemma validate_ok_facts (d : ImageBytes) (hv : (validate_artwork d).1 = true) :
    d.size ≤ MAX_FILE_SIZE ∧
    (∀ img, d.decoded = some img →
      supportedFormat img.format = true ∧ img.width ≤ MAX_WIDTH ∧
      img.height ≤ MAX_HEIGHT) := by
  constructor
  · by_contra hs
    push_neg at hs
    simp [validate_artwork, List.isEmpty_iff, List.append_eq_nil, hs] at hv
  · intro img hd
    refine ⟨?_, ?_, ?_⟩
    · by_contra hf
      simp [validate_artwork, List.isEmpty_iff, List.append_eq_nil, hd, hf] at hv
    · by_contra hwc
      push_neg at hwc
      simp [validate_artwork, List.isEmpty_iff, List.append_eq_nil, hd, hwc] at hv
    · by_contra hhc
      push_neg at hhc
      simp [validate_artwork, List.isEmpty_iff, List.append_eq_nil, hd, hhc] at hv

/-- Converting an already JPEG-converted mode again is the identity. -/
lemma convertMode_jpeg_fix (m : IMode) :
    convertMode (convertMode m ImgFormat.JPEG) ImgFormat.JPEG
      = convertMode m ImgFormat.JPEG := by
  cases m <;> rfl

/-- Converting an already PNG-converted mode again is the identity. -/
lemma convertMode_png_fix (m : IMode) :
    convertMode (convertMode m ImgFormat.PNG) ImgFormat.PNG
      = convertMode m ImgFormat.PNG := by
  cases m <;> rfl

/-- On a compliant-dimension JPEG input, optimization keeps the dimensions,
encodes as JPEG with the converted mode, and returns the ladder result. -/
lemma optimize_compliant_jpeg (c : Codec) (d : ImageBytes) (w h : Nat) (m : IMode)
    (hd : d.decoded = some ⟨w, h, ImgFormat.JPEG, m⟩)
    (hw : w ≤ MAX_WIDTH) (hh : h ≤ MAX_HEIGHT) :
    (resize_and_optimize c d none).1 =
      ⟨(optimize_jpeg (c.jpeg ⟨w, h, ImgFormat.JPEG, convertMode m ImgFormat.JPEG⟩)).size,
       some ⟨w, h, ImgFormat.JPEG, convertMode m ImgFormat.JPEG⟩⟩ := by
  simp [resize_and_optimize, hd, pickTargetFormat, supportedFormat,
    resizeDims_within w h hw hh, optimize_file_size]

/-- On a compliant-dimension PNG input whose strategy loop meets the budget,
optimization returns those PNG bytes with unchanged dimensions. -/
lemma optimize_compliant_png_hit (c : Codec) (d : ImageBytes) (w h : Nat)
    (m : IMode) (sz : Nat)
    (hd : d.decoded = some ⟨w, h, ImgFormat.PNG, m⟩)
    (hw : w ≤ MAX_WIDTH) (hh : h ≤ MAX_HEIGHT)
    (hs : (pngGo (fun s => c.png ⟨w, h, ImgFormat.PNG, convertMode m ImgFormat.PNG⟩ s.1 s.2)
        png_strategies none).2.1 = some sz) :
    (resize_and_optimize c d none).1 =
      ⟨sz, some ⟨w, h, ImgFormat.PNG, convertMode m ImgFormat.PNG⟩⟩ := by
  simp [resize_and_optimize, hd, pickTargetFormat, supportedFormat,
    resizeDims_within w h hw hh, optimize_file_size, hs]

/-- On a compliant-dimension PNG input whose strategy loop misses the budget
with the best size still over it, optimization falls back to the JPEG ladder
on the flattened image; the dimensions are unchanged and the format is JPEG. -/
lemma optimize_compliant_png_convert (c : Codec) (d : ImageBytes) (w h : Nat)
    (m : IMode)
    (hd : d.decoded = some ⟨w, h, ImgFormat.PNG, m⟩)
    (hw : w ≤ MAX_WIDTH) (hh : h ≤ MAX_HEIGHT)
    (hs : (pngGo (fun s => c.png ⟨w, h, ImgFormat.PNG, convertMode m ImgFormat.PNG⟩ s.1 s.2)
        png_strategies none).2.1 = none)
    (hb : MAX_FILE_SIZE <
      ((pngGo (fun s => c.png ⟨w, h, ImgFormat.PNG, convertMode m ImgFormat.PNG⟩ s.1 s.2)
        png_strategies none).2.2).getD 0) :
    (resize_and_optimize c d none).1 =
      ⟨(optimize_jpeg (c.jpeg
          ⟨w, h, ImgFormat.PNG, flattenPng (convertMode m ImgFormat.PNG)⟩)).size,
       some ⟨w, h, ImgFormat.JPEG, flattenPng (convertMode m ImgFormat.PNG)⟩⟩ := by
  simp [resize_and_optimize, hd, pickTargetFormat, supportedFormat,
    resizeDims_within w h hw hh, optimize_file_size, hs, hb]

/-- On a compliant-dimension PNG input whose strategy loop misses the budget
but whose best size is within it, optimization returns the best PNG bytes. -/
lemma optimize_compliant_png_best (c : Codec) (d : ImageBytes) (w h : Nat)
    (m : IMode)
    (hd : d.decoded = some ⟨w, h, ImgFormat.PNG, m⟩)
    (hw : w ≤ MAX_WIDTH) (hh : h ≤ MAX_HEIGHT)
    (hs : (pngGo (fun s => c.png ⟨w, h, ImgFormat.PNG, convertMode m ImgFormat.PNG⟩ s.1 s.2)
        png_strategies none).2.1 = none)
    (hb : ¬ MAX_FILE_SIZE <
      ((pngGo (fun s => c.png ⟨w, h, ImgFormat.PNG, convertMode m ImgFormat.PNG⟩ s.1 s.2)
        png_strategies none).2.2).getD 0) :
    (resize_and_optimize c d none).1 =
      ⟨((pngGo (fun s => c.png ⟨w, h, ImgFormat.PNG, convertMode m ImgFormat.PNG⟩ s.1 s.2)
          png_strategies none).2.2).getD 0,
       some ⟨w, h, ImgFormat.PNG, convertMode m ImgFormat.PNG⟩⟩ := by
  simp [resize_and_optimize, hd, pickTargetFormat, supportedFormat,
    resizeDims_within w h hw hh, optimize_file_size, hs, hb]

/-- C9. On an already-compliant input the pipeline reports it compliant
without invoking the optimizer and passes the original bytes through; and
optimize never changes the dimensions of a compliant image, while a second
optimization of the result keeps its dimensions and format. -/
theorem compliant_artwork_stable (c : Codec) (d : ImageBytes)
    (hv : (validate_artwork d).1 = true) :
    process_artwork c d true =
      { is_compliant := true, processed_data := some d,
        original_info := get_image_info d, processing_info := none,
        validation_issues := [], needs_processing := false } ∧
    (∀ img, d.decoded = some img →
      ∃ img1, (resize_and_optimize c d none).1.decoded = some img1 ∧
        img1.width = img.width ∧ img1.height = img.height ∧
        ∃ img2,
          (resize_and_optimize c (resize_and_optimize c d none).1 none).1.decoded
              = some img2 ∧
          img2.width = img1.width ∧ img2.height = img1.height ∧
          img2.format = img1.format) := by
  have hissues : (validate_artwork d).2 = [] := (validate_ok_iff d).mp hv
  refine ⟨by simp [process_artwork, hv, hissues], ?_⟩
  intro img hd
  obtain ⟨hsz, hprops⟩ := validate_ok_facts d hv
  obtain ⟨hfmt, hw, hh⟩ := hprops img hd
  obtain ⟨w, h, fmt, m⟩ := img
  cases fmt with
  | JPEG =>
    have h1 := optimize_compliant_jpeg c d w h m hd hw hh
    refine ⟨⟨w, h, ImgFormat.JPEG, convertMode m ImgFormat.JPEG⟩,
      by rw [h1], rfl, rfl, ?_⟩
    have hyd : (resize_and_optimize c d none).1.decoded
        = some ⟨w, h, ImgFormat.JPEG, convertMode m ImgFormat.JPEG⟩ := by rw [h1]
    have h2 := optimize_compliant_jpeg c (resize_and_optimize c d none).1 w h
      (convertMode m ImgFormat.JPEG) hyd hw hh
    exact ⟨⟨w, h, ImgFormat.JPEG,
      convertMode (convertMode m ImgFormat.JPEG) ImgFormat.JPEG⟩,
      by rw [h2], rfl, rfl, rfl⟩
  | PNG =>
    have hfix := convertMode_png_fix m
    cases hcase : (pngGo (fun s => c.png
        ⟨w, h, ImgFormat.PNG, convertMode m ImgFormat.PNG⟩ s.1 s.2)
        png_strategies none).2.1 with
    | some sz =>
      have h1 := optimize_compliant_png_hit c d w h m sz hd hw hh hcase
      refine ⟨⟨w, h, ImgFormat.PNG, convertMode m ImgFormat.PNG⟩,
        by rw [h1], rfl, rfl, ?_⟩
      have hyd : (resize_and_optimize c d none).1.decoded
          = some ⟨w, h, ImgFormat.PNG, convertMode m ImgFormat.PNG⟩ := by rw [h1]
      have hcase2 : (pngGo (fun s => c.png ⟨w, h, ImgFormat.PNG,
          convertMode (convertMode m ImgFormat.PNG) ImgFormat.PNG⟩ s.1 s.2)
          png_strategies none).2.1 = some sz := by rw [hfix]; exact hcase
      have h2 := optimize_compliant_png_hit c (resize_and_optimize c d none).1 w h
        (convertMode m ImgFormat.PNG) sz hyd hw hh hcase2
      exact ⟨⟨w, h, ImgFormat.PNG,
        convertMode (convertMode m ImgFormat.PNG) ImgFormat.PNG⟩,
        by rw [h2], rfl, rfl, rfl⟩
    | none =>
      by_cases hb : MAX_FILE_SIZE <
          ((pngGo (fun s => c.png
            ⟨w, h, ImgFormat.PNG, convertMode m ImgFormat.PNG⟩ s.1 s.2)
            png_strategies none).2.2).getD 0
      · have h1 := optimize_compliant_png_convert c d w h m hd hw hh hcase hb
        refine ⟨⟨w, h, ImgFormat.JPEG, flattenPng (convertMode m ImgFormat.PNG)⟩,
          by rw [h1], rfl, rfl, ?_⟩
        have hyd : (resize_and_optimize c d none).1.decoded
            = some ⟨w, h, ImgFormat.JPEG, flattenPng (convertMode m ImgFormat.PNG)⟩ := by
          rw [h1]
        have h2 := optimize_compliant_jpeg c (resize_and_optimize c d none).1 w h
          (flattenPng (convertMode m ImgFormat.PNG)) hyd hw hh
        exact ⟨⟨w, h, ImgFormat.JPEG,
          convertMode (flattenPng (convertMode m ImgFormat.PNG)) ImgFormat.JPEG⟩,
          by rw [h2], rfl, rfl, rfl⟩
      · have h1 := optimize_compliant_png_best c d w h m hd hw hh hcase hb
        refine ⟨⟨w, h, ImgFormat.PNG, convertMode m ImgFormat.PNG⟩,
          by rw [h1], rfl, rfl, ?_⟩
        have hyd : (resize_and_optimize c d none).1.decoded
            = some ⟨w, h, ImgFormat.PNG, convertMode m ImgFormat.PNG⟩ := by rw [h1]
        have hcase2 : (pngGo (fun s => c.png ⟨w, h, ImgFormat.PNG,
            convertMode (convertMode m ImgFormat.PNG) ImgFormat.PNG⟩ s.1 s.2)
            png_strategies none).2.1 = none := by rw [hfix]; exact hcase
        have hb2 : ¬ MAX_FILE_SIZE <
            ((pngGo (fun s => c.png ⟨w, h, ImgFormat.PNG,
              convertMode (convertMode m ImgFormat.PNG) ImgFormat.PNG⟩ s.1 s.2)
              png_strategies none).2.2).getD 0 := by rw [hfix]; exact hb
        have h2 := optimize_compliant_png_best c (resize_and_optimize c d none).1 w h
          (convertMode m ImgFormat.PNG) hyd hw hh hcase2 hb2
        refine ⟨⟨w, h, ImgFormat.PNG,
          convertMode (convertMode m ImgFormat.PNG) ImgFormat.PNG⟩,
          by rw [h2], rfl, rfl, rfl⟩
  | GIF => simp [supportedFormat] at hfmt
  | BMP => simp [supportedFormat] at hfmt
  | unknown => simp [supportedFormat] at hfmt

/-- Witness for `compliant_artwork_stable` at a compliant 300 by 200 JPEG. -/
theorem compliant_artwork_stable_witness :
    process_artwork constCodec ⟨50000, some ⟨300, 200, ImgFormat.JPEG, IMode.RGB⟩⟩
        true =
      { is_compliant := true,
        processed_data := some ⟨50000, some ⟨300, 200, ImgFormat.JPEG, IMode.RGB⟩⟩,
        original_info :=
          get_image_info ⟨50000, some ⟨300, 200, ImgFormat.JPEG, IMode.RGB⟩⟩,
        processing_info := none, validation_issues := [],
        needs_processing := false } :=
  (compliant_artwork_stable constCodec _ (by decide)).1

/-- Witness for `jpeg_quality_ladder` with an encoder fitting at quality 95. -/
theorem jpeg_quality_ladder_witness :
    (optimize_jpeg (fun q => 100 * q)).quality = 95 ∧
    (optimize_jpeg (fun q => 100 * q)).trace
      = [TraceEntry.jpegAttempt 95 9500, TraceEntry.jpegFinalQuality 95] := by
  have h := jpeg_quality_ladder (fun q => 100 * q) ⟨95, by decide, by decide⟩
  obtain ⟨hq, htr⟩ := h.2.2.2.2.2.2 (by decide)
  exact ⟨hq, by simpa using htr⟩

end Mp3Art
